import Mathlib

/-!
# Verification of the hcds formula subsystem

Shallow embedding of the formula parser (`app/api/formula_parser.py`),
scope resolver (`app/api/formula_resolution.py`), schema validation
(`app/api/templates.py`) and runtime evaluator (`app/api/compute.py`),
together with theorems settling the frozen claims about them.

Python dynamic values are modelled explicitly: the parser's intermediate
trees distinguish tuples from dicts (the source converts tuples to dicts
before persisting, and the validators test `type(item) == tuple`), and the
evaluator's values carry Python's string/float/bool distinctions.  Floats
are modelled as exact rationals; every concrete input used in a theorem
only involves values on which binary floating point and exact rational
arithmetic agree.
-/

namespace Hcds

/-- A node of the formula tree.  Mirrors the Python values flowing through
`formula_parser.py` / `formula_resolution.py`: a plain string leaf, a plain
nested list (a parenthesised group), a `(name, args)` tuple (produced while
folding functions/operators), a `{name: args}` dict (produced by
`_convert_tuples_to_dict` and the only non-leaf shape ever persisted), and
Python `None` (produced by `process_list` when a relative name fails to
resolve). -/
inductive FPart where
  | str (s : String)
  | lst (l : List FPart)
  | tup (name : String) (args : List FPart)
  | dct (name : String) (args : List FPart)
  | null
deriving Repr

/-! ## Expression parser (`formula_parser.py`) -/

/-- The two-character delimiters of the `re.split` pattern in
`parse_formula`, tried before the one-character ones. -/
def twoCharDelims : List String := [">=", "<=", "!=", "==", "&&", "||"]

/-- The one-character delimiters of the `re.split` pattern. -/
def oneCharDelims : List Char := [',', '(', ')', '*', '/', '+', '-', '>', '<', '=']

/-- Split a character stream at the delimiters, keeping the delimiters,
like `re.split` with a capturing group.  `acc` is the current chunk,
reversed. -/
def tokenizeAux : List Char → List Char → List String
  | [], acc => [String.mk acc.reverse]
  | c1 :: c2 :: rest, acc =>
      if String.mk [c1, c2] ∈ twoCharDelims then
        String.mk acc.reverse :: String.mk [c1, c2] :: tokenizeAux rest []
      else if c1 ∈ oneCharDelims then
        String.mk acc.reverse :: String.mk [c1] :: tokenizeAux (c2 :: rest) []
      else
        tokenizeAux (c2 :: rest) (c1 :: acc)
  | [c], acc =>
      if c ∈ oneCharDelims then [String.mk acc.reverse, String.mk [c], ""]
      else [String.mk (c :: acc).reverse]

/-- A character Python's `str.strip()` removes. -/
def isPySpace (c : Char) : Bool :=
  c = ' ' || c = '\t' || c = '\n' || c = '\r' || c = '\x0b' || c = '\x0c'

/-- Python `str.strip()`: drop leading and trailing whitespace. -/
def pyStrip (s : String) : String :=
  String.mk (((s.toList.dropWhile isPySpace).reverse.dropWhile isPySpace).reverse)

/-- `re.split` on the delimiter pattern, then trim each part and drop the
empty parts (`parse_formula`, lines 121-128). -/
def tokenize (s : String) : List String :=
  ((tokenizeAux s.toList []).map pyStrip).filter (· ≠ "")

/-- `_add_to_level`: build the raw nested structure.  `(` opens a new
level, `)` closes the current one, `,` is skipped, anything else is a
leaf.  Returns the level together with the unconsumed tokens.  The fuel is
an upper bound on the recursion depth; `parse_formula` below passes
`parts.length + 1`, which can never be exhausted because every recursive
call consumes at least the tokens already seen. -/
def addToLevel (fuel : Nat) (parts : List String) : List FPart × List String :=
  match fuel, parts with
  | 0, rest => ([], rest)
  | _, [] => ([], [])
  | f + 1, p :: rest =>
      if p = "(" then
        let (inner, rest1) := addToLevel f rest
        let (outer, rest2) := addToLevel f rest1
        (FPart.lst inner :: outer, rest2)
      else if p = ")" then ([], rest)
      else if p = "," then addToLevel f rest
      else
        let (outer, rest1) := addToLevel f rest
        (FPart.str p :: outer, rest1)

/-- The fixed function-name set of `_create_function_tuple`. -/
def functionNames : List String :=
  ["SUM", "DIFFERENCE", "PRODUCT", "MIN", "MAX", "MEAN", "IF", "LOOKUP",
   "QUOTIENT", "AND", "OR", "NOT", "COUNT", "CONCATENATE", "CONTAINS",
   "NOT_CONTAINS"]

mutual

/-- `_create_function_tuple`: a leaf naming a function, immediately
followed by a parenthesised group, becomes a `(name, args)` tuple
replacing both; the argument list is processed recursively.  Elements that
are not function-name strings (including bare nested lists) are passed
over without descending into them.  `none` models the `IndexError` /
ill-typed indexing the Python code runs into when a function name is not
followed by a list; no claim exercises that path. -/
def createFunctionTuple : List FPart → Option (List FPart)
  | [] => some []
  | FPart.str s :: rest =>
      if s ∈ functionNames then
        match rest with
        | h :: rest2 => do
            let targs ← createFunctionTupleArgs h
            let r ← createFunctionTuple rest2
            return FPart.tup s targs :: r
        | [] => none
      else do
        let r ← createFunctionTuple rest
        return FPart.str s :: r
  | x :: rest => do
      let r ← createFunctionTuple rest
      return x :: r

/-- The argument group following a function name (`part_list[part_idx+1]`)
must be a parenthesised group for the fold to behave; its contents are
processed recursively. -/
def createFunctionTupleArgs : FPart → Option (List FPart)
  | FPart.lst args => createFunctionTuple args
  | _ => none

end

/-- Is this element one of the operator strings of the given tier?  A
tuple or list element never equals a string in Python, so only `str`
leaves match (`part_list[part_idx] in [...]`). -/
def isOpIn (ops : List String) : FPart → Bool
  | FPart.str s => s ∈ ops
  | _ => false

/-- One precedence-tier pass of `_funtionalize_part`.  `left` is the
element at `part_idx - 1`; scanning starts at index 1.  When the current
element is an operator of the tier, it combines with its left and right
neighbours into a tuple node replacing all three, and scanning continues
from the same position; otherwise scanning advances.  `none` models the
`IndexError` on an operator with no right neighbour. -/
def foldTierAux (ops : List String) (left : FPart) : List FPart → Option (List FPart)
  | [] => some [left]
  | x :: rest =>
      if isOpIn ops x then
        match x, rest with
        | FPart.str op, right :: rest2 =>
            foldTierAux ops (FPart.tup op [left, right]) rest2
        | _, _ => none
      else
        (foldTierAux ops x rest).map (left :: ·)

/-- Run one tier pass over a whole list (empty and singleton lists are
returned unchanged, as in the Python loop whose index starts at 1). -/
def foldTier (ops : List String) : List FPart → Option (List FPart)
  | [] => some []
  | x :: rest => foldTierAux ops x rest

mutual

/-- One element of the cleanup loop at the top of `_funtionalize_part`:
the argument list of a tuple is functionalized recursively (cleanup, then
the three precedence-tier folds — the body of `_funtionalize_part`
inlined); dict, list and leaf elements are left alone (the source only
tests for tuples). -/
def cleanupPart : FPart → Option FPart
  | FPart.tup n args => do
      let c ← cleanupList args
      let t1 ← foldTier ["*", "/"] c
      let t2 ← foldTier ["-", "+"] t1
      let t3 ← foldTier [">", "<", ">=", "<=", "=", "!=", "&&", "||"] t2
      return FPart.tup n t3
  | x => some x

/-- The cleanup loop itself. -/
def cleanupList : List FPart → Option (List FPart)
  | [] => some []
  | x :: rest => do
      let y ← cleanupPart x
      let r ← cleanupList rest
      return y :: r

end

/-- `_funtionalize_part`: clean up tuple arguments, then fold the three
precedence tiers in order: `{*, /}`, then `{-, +}`, then the
comparison/logical tier. -/
def funtionalizePart (l : List FPart) : Option (List FPart) := do
  let c ← cleanupList l
  let t1 ← foldTier ["*", "/"] c
  let t2 ← foldTier ["-", "+"] t1
  foldTier [">", "<", ">=", "<=", "=", "!=", "&&", "||"] t2

mutual

/-- `_convert_tuples_to_dict`: every tuple becomes a dict with the same
key, recursively; other elements (including bare nested lists) are kept
as they are. -/
def convertTuplesToDict : List FPart → List FPart
  | [] => []
  | x :: rest => convertTupleToDictPart x :: convertTuplesToDict rest

def convertTupleToDictPart : FPart → FPart
  | FPart.tup n args => FPart.dct n (convertTuplesToDict args)
  | x => x

end

/-- `parse_formula`: tokenize, build the raw nesting, fold function calls
into tuples, fold the operator tiers, convert tuples to dicts. -/
def parseFormula (formula : String) : Option (List FPart) := do
  let parts := tokenize formula
  let top := (addToLevel (parts.length + 1) parts).fst
  let top2 ← createFunctionTuple top
  let top3 ← funtionalizePart top2
  return convertTuplesToDict top3

/-! ## Schema model (`templates.py` data shapes)

Only the fields the formula subsystem reads are modelled; description,
data-type and constraint fields are carried by the source documents but
never consulted by the parser, resolver, validators or evaluator. -/

/-- An attribute definition inside an entity definition. -/
structure AttrDef where
  id : String
  name : String
deriving Repr, DecidableEq

/-- A calculation definition: formula source text plus the resolved
`formula_code` tree. -/
structure CalcDef where
  id : String
  parent_id : String
  name : String
  formula : String
  formula_code : List FPart
deriving Repr

/-- An entity definition node of the schema tree.  The trunk carries
`parent_id = "None"` (the literal string, as written by
`create_template`). -/
inductive EntityDef where
  | mk (id parent_id name : String) (attributes : List AttrDef)
       (calculations : List CalcDef) (entities : List EntityDef)
deriving Repr

def EntityDef.id : EntityDef → String
  | .mk i _ _ _ _ _ => i

def EntityDef.parent_id : EntityDef → String
  | .mk _ p _ _ _ _ => p

def EntityDef.name : EntityDef → String
  | .mk _ _ n _ _ _ => n

def EntityDef.attributes : EntityDef → List AttrDef
  | .mk _ _ _ a _ _ => a

def EntityDef.calculations : EntityDef → List CalcDef
  | .mk _ _ _ _ c _ => c

def EntityDef.entities : EntityDef → List EntityDef
  | .mk _ _ _ _ _ e => e

/-- A stored template document (`_id`, `status`, `trunk`; the name and
source id play no role in the claims). -/
structure TemplateDoc where
  id : String
  status : String
  trunk : EntityDef
deriving Repr

/-! ## Scope resolver (`formula_resolution.py`) -/

/-- `name.lower().replace(" ", "_")`, the normalisation applied to every
stored display name before comparing it with a formula name component. -/
def normName (s : String) : String :=
  String.mk (s.toList.map (fun c => if c = ' ' then '_' else c.toLower))

/-- A character of the `\w` class of the Python regexes (ASCII). -/
def isWordChar (c : Char) : Bool :=
  c.isAlphanum || c = '_'

/-- A nonempty all-word-character string, i.e. a `\w+` match. -/
def isWordStr (s : String) : Bool :=
  s ≠ "" && s.toList.all isWordChar

/-- Split a character list at every dot (the relevant instance of
Python's `split`). -/
def splitOnDot : List Char → List (List Char)
  | [] => [[]]
  | '.' :: rest => [] :: splitOnDot rest
  | c :: rest =>
      match splitOnDot rest with
      | [] => [[c]]
      | w :: ws => (c :: w) :: ws

/-- Result of `parse_name_string`. -/
inductive NameRef where
  | uncle (n : String)
  | nephew (n1 n2 : String)
  | sibling (n : String)
deriving Repr, DecidableEq

/-- `parse_name_string`: try `^\.\.(\w+)$` (uncle), then
`^\.(\w+)\.(\w+)$` (nephew), then `^\.(\w+)$` (sibling); anything else is
no reference.  A string starting with `..` can only match the uncle
pattern, and for a string starting with a single `.` the remainder must
split into exactly one or two `\w+` components. -/
def parseNameString (s : String) : Option NameRef :=
  match s.toList with
  | '.' :: '.' :: rest =>
      if isWordStr (String.mk rest) then some (.uncle (String.mk rest)) else none
  | '.' :: rest =>
      match splitOnDot rest with
      | [w1, w2] =>
          if isWordStr (String.mk w1) && isWordStr (String.mk w2) then
            some (.nephew (String.mk w1) (String.mk w2))
          else none
      | [w1] =>
          if isWordStr (String.mk w1) then some (.sibling (String.mk w1)) else none
      | _ => none
  | _ => none

mutual

/-- `formula_resolution.find_entity_by_id`.  Returns the found entity and
its parent; note that this version reports the entity whose child list the
recursion entered through, which is the true parent only for direct
children (the resolver only ever reads the first component, so the claims
are unaffected). -/
def findEntityByIdRes : EntityDef → String → Option (EntityDef × Option EntityDef)
  | .mk i p n a c ents, eid =>
      if i = eid then some (.mk i p n a c ents, none)
      else
        match findEntityByIdResList ents eid with
        | some (f, _) => some (f, some (.mk i p n a c ents))
        | none => none

def findEntityByIdResList : List EntityDef → String → Option (EntityDef × Option EntityDef)
  | [], _ => none
  | ch :: rest, eid =>
      match findEntityByIdRes ch eid with
      | some r => some r
      | none => findEntityByIdResList rest eid

end

/-- `get_element_id`: resolve one name component against an entity's
scope.  The loops keep overwriting `attribute_id`, so the last matching
element wins, and a matching calculation overrides a matching attribute.
The `uncle` branch looks the parent entity up in the whole template; when
that lookup fails the Python code raises (`None` unpacking) — modelled as
`none`, a path no claim exercises. -/
def getElementId (entity : EntityDef) (name1 name2 : String) (ty : String)
    (template : TemplateDoc) : Option String :=
  if ty = "uncle" then
    match findEntityByIdRes template.trunk entity.parent_id with
    | none => none
    | some (parent, _) =>
        let a := parent.attributes.foldl
          (fun acc attr => if normName attr.name = name1 then some attr.id else acc) none
        parent.calculations.foldl
          (fun acc c => if normName c.name = name1 then some ("c_" ++ c.id) else acc) a
  else if ty = "sibling" then
    let a := entity.attributes.foldl
      (fun acc attr => if normName attr.name = name1 then some attr.id else acc) none
    entity.calculations.foldl
      (fun acc c => if normName c.name = name1 then some ("c_" ++ c.id) else acc) a
  else if ty = "nephew" then
    entity.entities.foldl
      (fun acc child =>
        if normName child.name = name1 then
          let a := child.attributes.foldl
            (fun acc2 attr => if normName attr.name = name2 then some ("_" ++ attr.id) else acc2) acc
          child.calculations.foldl
            (fun acc2 c => if normName c.name = name2 then some ("_c_" ++ c.id) else acc2) a
        else acc)
      none
  else none

/-- `decode_name` inside `process_list`: a string that parses as a
relative name is resolved through `get_element_id` (possibly to `None`);
any other string passes through unchanged. -/
def decodeName (s : String) (entity : EntityDef) (template : TemplateDoc) :
    Option String :=
  match parseNameString s with
  | some (.uncle n) => getElementId entity n "" "uncle" template
  | some (.sibling n) => getElementId entity n "" "sibling" template
  | some (.nephew n1 n2) => getElementId entity n1 n2 "nephew" template
  | none => some s

mutual

/-- `process_list`: rewrite every string leaf through `decode_name`
(`None` results become null leaves), recurse into dict values and nested
lists; elements of any other type are silently dropped (the Python
`if/elif` chain has no `else`). -/
def processList (l : List FPart) (entity : EntityDef) (template : TemplateDoc) :
    List FPart :=
  match l with
  | [] => []
  | x :: rest =>
      match processPart x entity template with
      | some y => y :: processList rest entity template
      | none => processList rest entity template

/-- One element of `process_list`: strings are decoded (a failed
resolution becomes a null leaf), dicts and nested lists are processed
recursively, and any other element (tuple, null) is dropped by the
`if/elif` chain. -/
def processPart (x : FPart) (entity : EntityDef) (template : TemplateDoc) :
    Option FPart :=
  match x with
  | FPart.str s =>
      some (match decodeName s entity template with
            | some v => FPart.str v
            | none => FPart.null)
  | FPart.dct n args => some (FPart.dct n (processList args entity template))
  | FPart.lst l2 => some (FPart.lst (processList l2 entity template))
  | _ => none

end

/-- The per-calculation loop of `process_entity_formulas`: parse each
formula and resolve its names against the owning node.  `none` propagates
a parser failure, which in Python would be an uncaught exception. -/
def processCalcs (calcs : List CalcDef) (entity : EntityDef)
    (template : TemplateDoc) : Option (List CalcDef) :=
  match calcs with
  | [] => some []
  | c :: rest => do
      let parsed ← parseFormula c.formula
      let rest2 ← processCalcs rest entity template
      return { c with formula_code := processList parsed entity template } :: rest2

mutual

/-- `process_entity_formulas`: resolve every calculation of the node,
then recurse into the child entities.  (The Python version mutates the
shared dicts in place; the scope lookups only read names and ids, which
the mutation never touches, so rebuilding the tree functionally is
equivalent.) -/
def processEntityFormulas (trunk : EntityDef) (template : TemplateDoc) :
    Option EntityDef :=
  match trunk with
  | .mk i p n attrs calcs ents => do
      let calcs2 ← processCalcs calcs (EntityDef.mk i p n attrs calcs ents) template
      let ents2 ← processEntityList ents template
      return EntityDef.mk i p n attrs calcs2 ents2

def processEntityList (ents : List EntityDef) (template : TemplateDoc) :
    Option (List EntityDef) :=
  match ents with
  | [] => some []
  | e :: rest => do
      let e2 ← processEntityFormulas e template
      let rest2 ← processEntityList rest template
      return e2 :: rest2

end

/-- `process_templateformulas`: resolve every formula of the template
against its (unmodified) schema shape. -/
def processTemplateformulas (t : TemplateDoc) : Option TemplateDoc := do
  let trunk' ← processEntityFormulas t.trunk t
  return { t with trunk := trunk' }

/-! ## Schema validation (`templates.py`) -/

mutual

/-- `templates.find_entity_by_id`: find an entity and its parent in the
tree (this version propagates the true parent from deeper levels). -/
def findEntityByIdT : EntityDef → String → Option (EntityDef × Option EntityDef)
  | .mk i p n a c ents, eid =>
      if i = eid then some (.mk i p n a c ents, none)
      else
        match findEntityByIdTList ents eid with
        | some (f, some par) => some (f, some par)
        | some (f, none) => some (f, some (.mk i p n a c ents))
        | none => none

def findEntityByIdTList : List EntityDef → String → Option (EntityDef × Option EntityDef)
  | [], _ => none
  | ch :: rest, eid =>
      match findEntityByIdT ch eid with
      | some r => some r
      | none => findEntityByIdTList rest eid

end

mutual

/-- `templates.find_calculation_by_id`: find a calculation and report the
entity through which the search descended at the *current* level (for
calculations nested two or more levels deep the reported entity is the
top-level branch child, not the real owner — a faithful translation of
the Python `return calculation, entity`). -/
def findCalculationById : EntityDef → String → Option (CalcDef × EntityDef)
  | .mk i p n a calcs ents, cid =>
      match calcs.find? (fun c => c.id = cid) with
      | some c => some (c, .mk i p n a calcs ents)
      | none => findCalculationByIdList ents cid

def findCalculationByIdList : List EntityDef → String → Option (CalcDef × EntityDef)
  | [], _ => none
  | ch :: rest, cid =>
      match findCalculationById ch cid with
      | some (c, _) => some (c, ch)
      | none => findCalculationByIdList rest cid

end

/-- `get_scope` inside `check_formula_code`: the scope of a calculation is
the ids of the grandparent node's attributes and calculations (uncles,
only when the owning node is not the trunk), the owning node's attributes
and calculations other than the calculation itself (siblings), and the
attributes and calculations of the owning node's children (nephews).
Returns `(scope, calcs_only)`; the second component is computed by the
source but never used by its caller.  `none` models the `TypeError` the
Python code raises when an entity lookup fails. -/
def getScope (calculation : CalcDef) (trunk : EntityDef) (calculation_id : String) :
    Option (List String × List String) :=
  match findEntityByIdT trunk calculation.parent_id with
  | none => none
  | some (parent, _) =>
      let uncles? : Option (List String × List String) :=
        if parent.parent_id ≠ "None" then
          match findEntityByIdT trunk parent.parent_id with
          | none => none
          | some (grandparent, _) =>
              some (grandparent.attributes.map (·.id) ++
                      grandparent.calculations.map (·.id),
                    grandparent.calculations.map (·.id))
        else some ([], [])
      match uncles? with
      | none => none
      | some (uncleScope, uncleCalcs) =>
          let sibCalcs := parent.calculations.filter (fun c => c.id ≠ calculation_id)
          let nephewScope := parent.entities.foldl
            (fun acc sib => acc ++ sib.attributes.map (·.id) ++
              sib.calculations.map (·.id)) []
          let nephewCalcs := parent.entities.foldl
            (fun acc sib => acc ++ sib.calculations.map (·.id)) []
          some (uncleScope ++ parent.attributes.map (·.id) ++
                  sibCalcs.map (·.id) ++ nephewScope,
                uncleCalcs ++ sibCalcs.map (·.id) ++ nephewCalcs)

/-- A lowercase hexadecimal digit (`[0-9a-f]`). -/
def isLowerHex (c : Char) : Bool :=
  c.isDigit || ('a' ≤ c && c ≤ 'f')

/-- Does the character list have the 8-4-4-4-12 UUID shape, with the given
digit predicate? -/
def uuidShape (hex : Char → Bool) (cs : List Char) : Bool :=
  cs.length == 36 &&
  cs.enum.all (fun ic =>
    if ic.1 = 8 || ic.1 = 13 || ic.1 = 18 || ic.1 = 23 then ic.2 = '-'
    else hex ic.2)

/-- The full-string match of `get_ids`' regex
`^[a-z_]{0,2}([0-9a-f]{8}-[0-9a-f]{4}-[0-9a-f]{4}-[0-9a-f]{4}-[0-9a-f]{12})$`:
a prefix of at most two characters from `[a-z_]` followed by a lowercase
UUID filling the rest of the string; returns the captured UUID.  (Note the
prefix class admits `""`, `"_"` and `"c_"` but not the three-character
`"_c_"`.) -/
def getIdOfString (s : String) : Option String :=
  let cs := s.toList
  let n := cs.length
  if n < 36 || n > 38 then none
  else
    let pre := cs.take (n - 36)
    let uu := cs.drop (n - 36)
    if pre.all (fun c => ('a' ≤ c && c ≤ 'z') || c = '_') && uuidShape isLowerHex uu then
      some (String.mk uu)
    else none

mutual

/-- `get_ids`: collect the UUIDs of the string items of a formula-code
list, recursing into *tuple* arguments only.  Dict nodes — the shape the
stored trees actually use — are neither matched nor descended into. -/
def getIds : List FPart → List String
  | [] => []
  | x :: rest => getIdsPart x ++ getIds rest

/-- The ids contributed by one element of the list. -/
def getIdsPart : FPart → List String
  | FPart.tup _ args => getIds args
  | FPart.str s =>
      (match getIdOfString s with
       | some u => [u]
       | none => [])
  | _ => []

end

/-- The allow-list of `check_functions` (verbatim from the source; note it
lacks `CONTAINS` and `NOT_CONTAINS`, which the runtime dispatcher
supports). -/
def checkFunctionsAllow : List String :=
  ["SUM", "DIFFERENCE", "PRODUCT", "MIN", "MAX", "MEAN", "IF", "LOOKUP",
   "QUOTIENT", "AND", "OR", "NOT", "COUNT", "CONCATENATE",
   "*", "+", "-", "/", ">", "<", "=", "!=", ">=", "<=", "&&", "||"]

mutual

/-- `check_functions`: walk the list and fail on a *tuple* node whose name
is outside the allow-list, recursing into tuple arguments.  All other
elements — including dict nodes, the shape `formula_code` actually
stores — are skipped. -/
def checkFunctions : List FPart → Bool
  | [] => true
  | x :: rest => checkFunctionsPart x && checkFunctions rest

/-- The check for one element: only tuple nodes are inspected. -/
def checkFunctionsPart : FPart → Bool
  | FPart.tup n args => n ∈ checkFunctionsAllow && checkFunctions args
  | _ => true

end

mutual

/-- `process_formula_code_by_entity`: one `(calculation id, referenced
id)` pair per id collected by `get_ids`, over every calculation of the
whole tree. -/
def processFormulaCodeByEntity : EntityDef → List (String × String)
  | .mk _ _ _ _ calcs ents =>
      calcs.foldr (fun c acc =>
        (getIds c.formula_code).map (fun i => (c.id, i)) ++ acc) [] ++
      processFormulaCodeByEntityList ents

def processFormulaCodeByEntityList : List EntityDef → List (String × String)
  | [] => []
  | e :: rest => processFormulaCodeByEntity e ++ processFormulaCodeByEntityList rest

end

/-! ### Cycle detection (`check_circularities`)

The Python code builds `graph` (adjacency lists in edge order, keys in
first-occurrence order), then runs a depth-first search over the keys with
a `visited` set and a `recursion_stack` set; a neighbour found on the
stack is a back-edge.  The model splits `visited` into the current path
`stack` and the finished nodes `done` (Python's `visited` is their union:
a node is added to both sets on entry and removed from the stack on
normal exit).  The fuel is an upper bound on the nesting depth of node
visits; `checkCircularities` passes one more than the number of distinct
vertices, which the proofs show can never be exhausted. -/

/-- Adjacency list of the built `graph`: all edge targets of a source, in
edge order (`graph.get(node, [])`). -/
def adjOf (edges : List (String × String)) (v : String) : List String :=
  (edges.filter (fun e => e.1 = v)).map (·.2)

mutual

/-- `is_cyclic(node)`: put the node on the stack, scan its neighbours
(recursing into unvisited ones, reporting a cycle for ones on the stack),
then move the node from the stack to `done`.  Returns the cycle flag and
the new `done` list; the stack is restored by the caller's context.
Running out of fuel returns `true`; the acyclicity proof shows the fuel
`checkCircularities` supplies can only be exhausted when the graph has a
cycle, in which case `true` is the right answer anyway, so the model's
output always agrees with the source. -/
def dfsNode (fuel : Nat) (edges : List (String × String)) (v : String)
    (done stack : List String) : Bool × List String :=
  match fuel with
  | 0 => (true, done)
  | fuel + 1 =>
      match dfsList fuel edges (adjOf edges v) done (v :: stack) with
      | (true, d') => (true, d')
      | (false, d') => (false, v :: d')

/-- The neighbour loop of `is_cyclic`: `n ∉ visited` means
`n ∉ done ∧ n ∉ stack`; otherwise `n ∈ stack` is the back-edge test. -/
def dfsList (fuel : Nat) (edges : List (String × String)) (ns : List String)
    (done stack : List String) : Bool × List String :=
  match ns with
  | [] => (false, done)
  | n :: rest =>
      if n ∉ done ∧ n ∉ stack then
        match dfsNode fuel edges n done stack with
        | (true, d') => (true, d')
        | (false, d') => dfsList fuel edges rest d' stack
      else if n ∈ stack then (true, done)
      else dfsList fuel edges rest done stack

end

/-- The top-level loop `for node in graph: if node not in visited: ...`
(at top level the stack is empty, so `visited = done`). -/
def dfsAll (fuel : Nat) (edges : List (String × String)) (nodes : List String)
    (done : List String) : Bool × List String :=
  match nodes with
  | [] => (false, done)
  | v :: rest =>
      if v ∉ done then
        match dfsNode fuel edges v done [] with
        | (true, d') => (true, d')
        | (false, d') => dfsAll fuel edges rest d'
      else dfsAll fuel edges rest done

/-- Every vertex mentioned by the edge list (sources then targets),
deduplicated; a superset of everything the search can ever visit. -/
def vertsOf (edges : List (String × String)) : List String :=
  (edges.map Prod.fst ++ edges.map Prod.snd).dedup

/-- `check_circularities`: the dict keys are the edge sources in first
occurrence order; `True` iff the search finds a back-edge. -/
def checkCircularities (edges : List (String × String)) : Bool :=
  let nodes := (edges.map Prod.fst).dedup
  (dfsAll ((vertsOf edges).length + 1) edges nodes []).1

/-- The inconsistent return value of `check_formula_code`: some paths
return a bare boolean, others a `(bool, reason)` tuple. -/
inductive CheckResult where
  | bool (b : Bool)
  | pair (b : Bool) (reason : String)
deriving Repr, DecidableEq

/-- Python truthiness of a `CheckResult`: a bare boolean is its own truth
value; a two-element tuple is always truthy — `(False, reason)` included. -/
def CheckResult.truthy : CheckResult → Bool
  | .bool b => b
  | .pair _ _ => true

/-- `check_formula_code`: find the calculation, check the functions, check
every collected id against the scope, then check the whole-schema graph
for cycles.  The `reason` local is only ever set on the tuple-returning
paths (the `global reason` inside `check_functions` writes a different,
module-level variable), so the four failure paths return
`(False, "Calculation not found.")`, bare `False`, bare `False` and
`(False, "Circular reference.")` respectively, and success returns
`(True, "")`.  `none` models the `TypeError` crash when `get_scope`'s
entity lookups fail. -/
def checkFormulaCode (trunk : EntityDef) (calculation_id : String) :
    Option CheckResult :=
  match findCalculationById trunk calculation_id with
  | none => some (.pair false "Calculation not found.")
  | some (calculation, _) =>
      if !checkFunctions calculation.formula_code then some (.bool false)
      else
        match getScope calculation trunk calculation_id with
        | none => none
        | some (scope, _) =>
            let ids := getIds calculation.formula_code
            if ids.any (fun i => i ∉ scope) then some (.bool false)
            else if checkCircularities (processFormulaCodeByEntity trunk) then
              some (.pair false "Circular reference.")
            else some (.pair true "")

/-! ## Runtime evaluator (`compute.py`)

Python floats are modelled as exact rationals.  Python ints (the results
of `len`, and the bool/int unification of arithmetic) are merged into the
same constructor; no claim distinguishes `3` from `3.0`, and Python's
`==` treats them alike. -/

/-- An exact rational, used to model Python floats.  A self-contained
type (rather than Mathlib's `Rat`) so that every arithmetic operation
reduces inside the kernel; values are kept normalised (coprime numerator
and positive denominator), making structural equality value equality. -/
structure PyRat where
  num : Int
  den : Nat
deriving Repr, DecidableEq

/-- Normalising constructor: divide out the gcd.  A zero denominator
(never produced by the evaluator, which checks divisors first) is mapped
to the fixed marker `⟨0, 0⟩`. -/
def pyratMk (n : Int) (d : Nat) : PyRat :=
  if d = 0 then ⟨0, 0⟩
  else
    let g := Nat.gcd n.natAbs d
    ⟨n / (g : Int), d / g⟩

instance : OfNat PyRat n := ⟨⟨(n : Int), 1⟩⟩

def pyratOfInt (n : Int) : PyRat := ⟨n, 1⟩

def pyratAdd (a b : PyRat) : PyRat :=
  pyratMk (a.num * (b.den : Int) + b.num * (a.den : Int)) (a.den * b.den)

def pyratSub (a b : PyRat) : PyRat :=
  pyratMk (a.num * (b.den : Int) - b.num * (a.den : Int)) (a.den * b.den)

def pyratMul (a b : PyRat) : PyRat :=
  pyratMk (a.num * b.num) (a.den * b.den)

/-- Division; callers check for a zero divisor first. -/
def pyratDiv (a b : PyRat) : PyRat :=
  pyratMk (a.num * (b.den : Int) * (if b.num < 0 then -1 else 1))
    (a.den * b.num.natAbs)

/-- Cross-multiplication comparison (denominators are positive). -/
def pyratLt (a b : PyRat) : Bool :=
  a.num * (b.den : Int) < b.num * (a.den : Int)

def pyratLe (a b : PyRat) : Bool :=
  a.num * (b.den : Int) ≤ b.num * (a.den : Int)

def pyratEq (a b : PyRat) : Bool :=
  a.num * (b.den : Int) = b.num * (a.den : Int)

/-- A Python value flowing through the evaluator: string, float (exact
rational model) or bool. -/
inductive PyVal where
  | s (v : String)
  | f (v : PyRat)
  | b (v : Bool)
deriving Repr, DecidableEq

/-- A Python runtime failure of the evaluator.  `noFuel` marks an
evaluation that exceeds the fuel, i.e. one the real interpreter would
still be running (or would kill with an untyped `RecursionError`). -/
inductive EvalErr where
  | typeErr
  | idxErr
  | valErr (msg : String)
  | zeroDiv
  | httpErr (msg : String)
  | noFuel
deriving Repr, DecidableEq

/-- Decimal value of a digit list. -/
def digitsVal (cs : List Char) : Nat :=
  cs.foldl (fun a c => a * 10 + (c.toNat - 48)) 0

/-- Python's `float(string)` on plain decimal literals: optional
surrounding whitespace, optional sign, digits with an optional fractional
part (exponents, `inf` and `nan` are not modelled — no formula in the
claims uses them, and they would return `none` here like any other
unparsable string, where Python would accept them). -/
def parseFloat (s : String) : Option PyRat :=
  let cs := (pyStrip s).toList
  let (sgn, cs) : Int × List Char :=
    match cs with
    | '-' :: r => (-1, r)
    | '+' :: r => (1, r)
    | r => (1, r)
  let ip := cs.takeWhile (·.isDigit)
  let rest := cs.dropWhile (·.isDigit)
  match rest with
  | [] =>
      if ip.isEmpty then none
      else some (pyratOfInt (sgn * digitsVal ip))
  | '.' :: fr =>
      if fr.all (·.isDigit) && !(ip.isEmpty && fr.isEmpty) then
        some (pyratMk (sgn * ((digitsVal ip * 10 ^ fr.length + digitsVal fr : Nat) : Int))
          (10 ^ fr.length))
      else none
  | _ => none

/-- `float(x)` coercion: strings are parsed, floats pass through, bools
become `1.0`/`0.0`. -/
def pyFloat : PyVal → Option PyRat
  | .s v => parseFloat v
  | .f q => some q
  | .b b => some (if b then 1 else 0)

/-- The numeric view Python's arithmetic and comparison operators take of
a value: floats and bools (ints) are numbers, strings are not. -/
def pyNum : PyVal → Option PyRat
  | .f q => some q
  | .b b => some (if b then 1 else 0)
  | .s _ => none

/-- Python truthiness: nonempty string, nonzero number, `True`. -/
def pyTruthy : PyVal → Bool
  | .s v => v ≠ ""
  | .f q => q.num ≠ 0
  | .b b => b

/-- The smallest number of decimal digits that represents the rational
exactly, if at most 40 suffice (the denominator of a normalised value
divides `10 ^ k` exactly when `k` digits suffice). -/
def decScale (q : PyRat) : Option Nat :=
  (List.range 41).find? (fun k => (10 : Nat) ^ k % q.den == 0)

/-- Left-pad with zeros to the given length. -/
def padZeros (s : String) (n : Nat) : String :=
  String.mk (List.replicate (n - s.length) '0') ++ s

/-- `str()` of a Python float.  Python prints the shortest decimal that
round-trips; for values exactly representable in decimal (the only floats
the claims' inputs produce) that is the exact decimal without trailing
zeros, which is what this computes.  Rationals with no finite decimal
expansion get a marker string (unreachable from the claims' inputs). -/
def pyFloatRepr (q : PyRat) : String :=
  match decScale q with
  | none => "<nondecimal>"
  | some 0 => toString q.num ++ ".0"
  | some k =>
      let a := q.num.natAbs * (10 ^ k / q.den)
      let ds := padZeros (toString a) (k + 1)
      (if q.num < 0 then "-" else "") ++
        ds.dropRight k ++ "." ++ String.mk (ds.toList.drop (ds.length - k))

/-- Python `str()` of an evaluator value. -/
def pyStr : PyVal → String
  | .s v => v
  | .f q => pyFloatRepr q
  | .b true => "True"
  | .b false => "False"

/-- Lexicographic code-point comparison of character lists — Python's
`<` on strings. -/
def charListLt : List Char → List Char → Bool
  | [], [] => false
  | [], _ :: _ => true
  | _ :: _, [] => false
  | a :: as2, b :: bs =>
      if a.toNat < b.toNat then true
      else if b.toNat < a.toNat then false
      else charListLt as2 bs

def pyStrLt (a b : String) : Bool := charListLt a.toList b.toList

/-- `items_list[i]`, raising `IndexError` past the end. -/
def item (l : List PyVal) (i : Nat) : Except EvalErr PyVal :=
  match l.get? i with
  | some v => .ok v
  | none => .error .idxErr

/-- A Python binary comparison (`<`, `>`, ...): two strings compare
lexicographically, numbers (floats/bools) numerically, and a
string/number mix raises `TypeError`. -/
def pyCmp (fs : String → String → Bool) (fq : PyRat → PyRat → Bool)
    (a b : PyVal) : Except EvalErr PyVal :=
  match a, b with
  | .s x, .s y => .ok (.b (fs x y))
  | a, b =>
      match pyNum a, pyNum b with
      | some x, some y => .ok (.b (fq x y))
      | _, _ => .error .typeErr

/-- Python `==`: equal strings, numerically equal numbers; a
string/number mix is simply unequal (no error). -/
def pyEq (a b : PyVal) : Bool :=
  match a, b with
  | .s x, .s y => x = y
  | a, b =>
      match pyNum a, pyNum b with
      | some x, some y => pyratEq x y
      | _, _ => false

/-- Coerce for `sum(float(item) ...)` / `product`, raising `ValueError`
on an unparsable string. -/
def floatItem (v : PyVal) : Except EvalErr PyRat :=
  match pyFloat v with
  | some q => .ok q
  | none => .error (.valErr "could not convert string to float")

/-- Numeric view for raw arithmetic (`-`, `/`, `sum` builtin), raising
`TypeError` on strings. -/
def numItem (v : PyVal) : Except EvalErr PyRat :=
  match pyNum v with
  | some q => .ok q
  | none => .error .typeErr

/-- `_function_sum`: `sum(float(item) for item in items_list)`. -/
def functionSum (l : List PyVal) : Except EvalErr PyVal := do
  let xs ← l.mapM floatItem
  return .f (xs.foldl pyratAdd 0)

/-- `_function_product`: running product starting at `1`, coercing each
item with `float`. -/
def functionProduct (l : List PyVal) : Except EvalErr PyVal := do
  let xs ← l.mapM floatItem
  return .f (xs.foldl pyratMul 1)

/-- `_function_difference`: `items_list[0] - items_list[1]`, raw Python
subtraction (no `float` coercion, so string operands raise `TypeError`). -/
def functionDifference (l : List PyVal) : Except EvalErr PyVal := do
  let a ← item l 0
  let b ← item l 1
  let x ← numItem a
  let y ← numItem b
  return .f (pyratSub x y)

/-- `_function_quotient`: `items_list[0] / items_list[1]`, raw Python
division; a zero divisor raises `ZeroDivisionError`. -/
def functionQuotient (l : List PyVal) : Except EvalErr PyVal := do
  let a ← item l 0
  let b ← item l 1
  let x ← numItem a
  let y ← numItem b
  if y.num = 0 then .error .zeroDiv else return .f (pyratDiv x y)

/-- `_function_and`: `all`, over truthiness (`all([]) = True`). -/
def functionAnd (l : List PyVal) : Except EvalErr PyVal :=
  .ok (.b (l.all pyTruthy))

/-- `_function_or`: `any`. -/
def functionOr (l : List PyVal) : Except EvalErr PyVal :=
  .ok (.b (l.any pyTruthy))

/-- `_function_not`: `not items_list[0]`. -/
def functionNot (l : List PyVal) : Except EvalErr PyVal := do
  let a ← item l 0
  return .b (!pyTruthy a)

/-- `_function_count`: `len(items_list)` (a Python int, merged into the
numeric constructor). -/
def functionCount (l : List PyVal) : Except EvalErr PyVal :=
  .ok (.f (pyratOfInt l.length))

/-- `_function_concatenate`: `''.join`, `TypeError` on a non-string. -/
def functionConcatenate (l : List PyVal) : Except EvalErr PyVal := do
  let xs ← l.mapM (fun v => match v with
    | .s x => Except.ok x
    | _ => .error .typeErr)
  return .s (String.join xs)

/-- Substring test (`needle in hay` on Python strings). -/
def strContains (needle hay : String) : Bool :=
  hay.toList.tails.any (fun t => needle.toList.isPrefixOf t)

/-- `_function_contains`: `items_list[0] in items_list[1]`. -/
def functionContains (l : List PyVal) : Except EvalErr PyVal := do
  let a ← item l 0
  let b ← item l 1
  match a, b with
  | .s x, .s y => return .b (strContains x y)
  | _, _ => .error .typeErr

/-- `_function_not_contains`. -/
def functionNotContains (l : List PyVal) : Except EvalErr PyVal := do
  let a ← item l 0
  let b ← item l 1
  match a, b with
  | .s x, .s y => return .b (!strContains x y)
  | _, _ => .error .typeErr

/-- `_function_greater_than`. -/
def functionGreaterThan (l : List PyVal) : Except EvalErr PyVal := do
  let a ← item l 0
  let b ← item l 1
  pyCmp (fun x y => pyStrLt y x) (fun x y => pyratLt y x) a b

/-- `_function_less_than`. -/
def functionLessThan (l : List PyVal) : Except EvalErr PyVal := do
  let a ← item l 0
  let b ← item l 1
  pyCmp (fun x y => pyStrLt x y) (fun x y => pyratLt x y) a b

/-- `_function_greater_than_or_equal_to`. -/
def functionGe (l : List PyVal) : Except EvalErr PyVal := do
  let a ← item l 0
  let b ← item l 1
  pyCmp (fun x y => !pyStrLt x y) (fun x y => pyratLe y x) a b

/-- `_function_less_than_or_equal_to`. -/
def functionLe (l : List PyVal) : Except EvalErr PyVal := do
  let a ← item l 0
  let b ← item l 1
  pyCmp (fun x y => !pyStrLt y x) (fun x y => pyratLe x y) a b

/-- `_function_equal_to`. -/
def functionEqualTo (l : List PyVal) : Except EvalErr PyVal := do
  let a ← item l 0
  let b ← item l 1
  return .b (pyEq a b)

/-- `_function_not_equal_to`. -/
def functionNotEqualTo (l : List PyVal) : Except EvalErr PyVal := do
  let a ← item l 0
  let b ← item l 1
  return .b (!pyEq a b)

/-- `_function_if`: `items_list[2] if items_list[0] else items_list[1]` —
note this yields the *third* argument when the condition is truthy and
the *second* otherwise, verbatim from the source. -/
def functionIf (l : List PyVal) : Except EvalErr PyVal := do
  let c ← item l 0
  if pyTruthy c then item l 2 else item l 1

/-- `_function_lookup`: the source's body is a TODO that returns
`items_list[0]`. -/
def functionLookup (l : List PyVal) : Except EvalErr PyVal :=
  item l 0

/-- `min` over Python `<` (mixed string/number contents raise
`TypeError`, an empty list raises `ValueError`). -/
def functionMin (l : List PyVal) : Except EvalErr PyVal :=
  match l with
  | [] => .error (.valErr "min() arg is an empty sequence")
  | x :: rest =>
      rest.foldlM (fun acc v => do
        let c ← pyCmp (fun a b => pyStrLt a b) (fun a b => pyratLt a b) v acc
        return if pyTruthy c then v else acc) x

/-- `max` over Python `>`. -/
def functionMax (l : List PyVal) : Except EvalErr PyVal :=
  match l with
  | [] => .error (.valErr "max() arg is an empty sequence")
  | x :: rest =>
      rest.foldlM (fun acc v => do
        let c ← pyCmp (fun a b => pyStrLt b a) (fun a b => pyratLt b a) v acc
        return if pyTruthy c then v else acc) x

/-- `_function_average`: `sum(items_list) / len(items_list)` — the `sum`
builtin starts from the int `0`, so string items raise `TypeError`, and
an empty list divides by zero. -/
def functionAverage (l : List PyVal) : Except EvalErr PyVal := do
  let xs ← l.mapM numItem
  if l.length = 0 then .error .zeroDiv
  else return .f (pyratDiv (xs.foldl pyratAdd 0) (pyratOfInt l.length))

/-- `_function_identity` on a list argument: `items_list[0]`. -/
def functionIdentityList (l : List PyVal) : Except EvalErr PyVal :=
  item l 0

/-- `_function_identity` on a non-list argument: `str(items_list)`. -/
def functionIdentityVal (v : PyVal) : Except EvalErr PyVal :=
  .ok (.s (pyStr v))

/-- The `if/elif` dispatch of `process_function` for a named handle. -/
def dispatchFunction (h : String) (l : List PyVal) : Except EvalErr PyVal :=
  if h = "SUM" || h = "+" then functionSum l
  else if h = "DIFFERENCE" || h = "-" then functionDifference l
  else if h = "PRODUCT" || h = "*" then functionProduct l
  else if h = "MIN" then functionMin l
  else if h = "MAX" then functionMax l
  else if h = "MEAN" then functionAverage l
  else if h = "IF" then functionIf l
  else if h = "LOOKUP" then functionLookup l
  else if h = "QUOTIENT" || h = "/" then functionQuotient l
  else if h = "AND" then functionAnd l
  else if h = "OR" then functionOr l
  else if h = "NOT" then functionNot l
  else if h = "COUNT" then functionCount l
  else if h = "CONCATENATE" then functionConcatenate l
  else if h = "CONTAINS" then functionContains l
  else if h = "NOT_CONTAINS" then functionNotContains l
  else if h = ">" then functionGreaterThan l
  else if h = "<" then functionLessThan l
  else if h = ">=" then functionGe l
  else if h = "<=" then functionLe l
  else if h = "=" then functionEqualTo l
  else if h = "!=" then functionNotEqualTo l
  else if h = "&&" then functionAnd l
  else if h = "||" then functionOr l
  else .error (.valErr "Unknown function")

/-- An attribute value on a live instance document. -/
structure AttrVal where
  attribute_definition_id : String
  value : String
deriving Repr, DecidableEq

/-- A live instance document of the data store (`_id`,
`parent_entity_id`, `attributes`, `is_deleted`). -/
structure Doc where
  id : String
  parent_entity_id : String
  attributes : List AttrVal
  is_deleted : Bool
deriving Repr, DecidableEq

/-- `couchdb_client.get_document`: `None` when absent. -/
def getDocument (store : List Doc) (docId : String) : Option Doc :=
  store.find? (fun d => d.id = docId)

/-- The CouchDB query `{"selector": {"parent_entity_id": x}}` used for
child fan-out: every document with that parent id — the `is_deleted`
flag is *not* part of the selector. -/
def findChildren (store : List Doc) (parentId : String) : List Doc :=
  store.filter (fun d => d.parent_entity_id = parentId)

/-- A hexadecimal digit of either case (`[0-9a-fA-F]`). -/
def isHexChar (c : Char) : Bool :=
  c.isDigit || ('a' ≤ c && c ≤ 'f') || ('A' ≤ c && c ≤ 'F')

/-- `re.search` of `match_uuid`'s pattern
`(.*?)([0-9a-fA-F]{8}-(?:[0-9a-fA-F]{4}-){3}[0-9a-fA-F]{12})`: the lazy
prefix makes the match start at the earliest position where a UUID
begins; characters after the UUID are ignored.  Returns
`(prefix, uuid)`. -/
def findUuidSplitAux : List Char → List Char → Option (String × String)
  | pre, rest =>
      if uuidShape isHexChar (rest.take 36) then
        some (String.mk pre.reverse, String.mk (rest.take 36))
      else
        match rest with
        | [] => none
        | c :: rest2 => findUuidSplitAux (c :: pre) rest2

def findUuidSplit (s : String) : Option (String × String) :=
  findUuidSplitAux [] s.toList

mutual

/-- `calc`: fetch the entity's parent document, look the calculation up in
the template store (`get_calculation` refetches the template by its id),
and evaluate its `formula_code`.

The whole mutual evaluator consumes one unit of fuel per step so that it
is structurally recursive on the fuel; the source has no bound at all —
exhausting the fuel models an evaluation the real interpreter has not
finished after that many steps (for the non-recursive claims any
sufficiently large fuel gives the interpreter's answer, and the
recursion claim quantifies over every fuel). -/
def calcF (fuel : Nat) (tmplStore : List TemplateDoc) (template : TemplateDoc)
    (store : List Doc) (entity : Doc) (cid : String) : Except EvalErr PyVal :=
  match fuel with
  | 0 => .error .noFuel
  | fuel + 1 =>
      let parentEnt := getDocument store entity.parent_entity_id
      match tmplStore.find? (fun t => t.id = template.id) with
      | none => .error (.httpErr "Template not found")
      | some t =>
          match findCalculationById t.trunk cid with
          | none => .error (.httpErr "Calculation not found")
          | some (calculation, _) =>
              processFunction fuel tmplStore template store entity parentEnt
                (FPart.lst calculation.formula_code)

/-- `process_function`: a string is wrapped into a singleton list for
`get_values`; a list recurses on its head (yielding a bare value); a dict
dispatches its key over the evaluated argument list; tuples and `None`
hit the trailing `else: raise ValueError`.  A `None` handle applies
`_function_identity`. -/
def processFunction (fuel : Nat) (tmplStore : List TemplateDoc)
    (template : TemplateDoc) (store : List Doc) (entity : Doc)
    (parentEnt : Option Doc) (portion : FPart) : Except EvalErr PyVal :=
  match fuel with
  | 0 => .error .noFuel
  | fuel + 1 =>
      match portion with
      | .str s => do
          let vl ← matchUuid fuel tmplStore template store entity parentEnt s
          functionIdentityList vl
      | .lst l =>
          match l with
          | [] => .error .idxErr
          | x :: _ => do
              let v ← processFunction fuel tmplStore template store entity parentEnt x
              functionIdentityVal v
      | .dct n args => do
          let vl ← getValues fuel tmplStore template store entity parentEnt args
          dispatchFunction n vl
      | .tup _ _ => .error (.valErr "Unknown formula_code_portion type")
      | .null => .error (.valErr "Unknown formula_code_portion type")

/-- `get_values`: strings go through `match_uuid`, dicts are evaluated as
nested functions, a list inside a list raises, anything else (tuples,
`None`) raises. -/
def getValues (fuel : Nat) (tmplStore : List TemplateDoc)
    (template : TemplateDoc) (store : List Doc) (entity : Doc)
    (parentEnt : Option Doc) (l : List FPart) : Except EvalErr (List PyVal) :=
  match fuel with
  | 0 => .error .noFuel
  | fuel + 1 =>
      match l with
      | [] => .ok []
      | .str s :: rest => do
          let vl1 ← matchUuid fuel tmplStore template store entity parentEnt s
          let vl2 ← getValues fuel tmplStore template store entity parentEnt rest
          return vl1 ++ vl2
      | .lst _ :: _ => .error (.valErr "Lists in a list are not allowed.")
      | .dct n args :: rest => do
          let v ← processFunction fuel tmplStore template store entity parentEnt (.dct n args)
          let vl2 ← getValues fuel tmplStore template store entity parentEnt rest
          return v :: vl2
      | .tup _ _ :: _ => .error (.valErr "Unknown type")
      | .null :: _ => .error (.valErr "Unknown type")

/-- `match_uuid`: split the item at the first embedded UUID.  No UUID:
the item itself is appended as a literal.  Otherwise the debug print of
`parent_entity['_id']` dereferences the parent document, raising
`TypeError` when the entity has no stored parent; then the prefix selects
the fetch strategy.  `""`: scan the *parent's* attribute list first and
the entity's own list second, appending the first match of each, so an id
present in both contributes two values with the parent's first.  `"_"`:
every attribute match of every child document whose `parent_entity_id` is
the entity — deleted children included, the query does not filter them.
`"c_"`: recursive evaluation against the same entity.  `"_c_"`: recursive
evaluation against each child.  Any other prefix raises. -/
def matchUuid (fuel : Nat) (tmplStore : List TemplateDoc)
    (template : TemplateDoc) (store : List Doc) (entity : Doc)
    (parentEnt : Option Doc) (si : String) : Except EvalErr (List PyVal) :=
  match fuel with
  | 0 => .error .noFuel
  | fuel + 1 =>
      match findUuidSplit si with
      | none => .ok [.s si]
      | some (pre, uu) =>
          match parentEnt with
          | none => .error .typeErr
          | some parent =>
              if pre = "" then
                .ok (((parent.attributes.find?
                        (fun a => a.attribute_definition_id = uu)).toList.map
                          (fun a => PyVal.s a.value)) ++
                     ((entity.attributes.find?
                        (fun a => a.attribute_definition_id = uu)).toList.map
                          (fun a => PyVal.s a.value)))
              else if pre = "_" then
                .ok ((findChildren store entity.id).foldr
                  (fun c acc =>
                    (c.attributes.filter
                      (fun a => a.attribute_definition_id = uu)).map
                        (fun a => PyVal.s a.value) ++ acc) [])
              else if pre = "c_" then do
                let v ← calcF fuel tmplStore template store entity uu
                return [v]
              else if pre = "_c_" then
                calcChildren fuel tmplStore template store
                  (findChildren store entity.id) uu
              else .error (.valErr "Unknown prefix")

/-- The `_c_` child loop: evaluate the referenced calculation once per
child document, in store order. -/
def calcChildren (fuel : Nat) (tmplStore : List TemplateDoc)
    (template : TemplateDoc) (store : List Doc) (children : List Doc)
    (cid : String) : Except EvalErr (List PyVal) :=
  match fuel with
  | 0 => .error .noFuel
  | fuel + 1 =>
      match children with
      | [] => .ok []
      | c :: rest => do
          let v ← calcF fuel tmplStore template store c cid
          let vs ← calcChildren fuel tmplStore template store rest cid
          return v :: vs

end

/-! ## The `update_calculation` commit path (`templates.py`) -/

mutual

/-- Python `==` on formula-tree values (used by `list.remove`). -/
def FPart.beq : FPart → FPart → Bool
  | .str a, .str b => a == b
  | .lst a, .lst b => FPart.beqList a b
  | .tup n a, .tup m b => n == m && FPart.beqList a b
  | .dct n a, .dct m b => n == m && FPart.beqList a b
  | .null, .null => true
  | _, _ => false

def FPart.beqList : List FPart → List FPart → Bool
  | [], [] => true
  | a :: as2, b :: bs => FPart.beq a b && FPart.beqList as2 bs
  | _, _ => false

end

/-- Python `==` on calculation dicts (field-wise). -/
def CalcDef.beq (a b : CalcDef) : Bool :=
  a.id == b.id && a.parent_id == b.parent_id && a.name == b.name &&
  a.formula == b.formula && FPart.beqList a.formula_code b.formula_code

/-- `list.remove(x)`: drop the first element equal to `x`; `none` models
the `ValueError` when no element is equal. -/
def removeFirstCalc : List CalcDef → CalcDef → Option (List CalcDef)
  | [], _ => none
  | c :: rest, x =>
      if CalcDef.beq c x then some rest
      else (removeFirstCalc rest x).map (c :: ·)

mutual

/-- Apply `calculations.remove(old); calculations.append(new)` to the
entity with the given id (the object `update_calculation` mutates is
identified here by its id, which is unique in any well-formed schema). -/
def updateCalcsAt : EntityDef → String → CalcDef → CalcDef → Option EntityDef
  | .mk i p n a calcs ents, tid, old, new =>
      if i = tid then
        match removeFirstCalc calcs old with
        | some cs => some (.mk i p n a (cs ++ [new]) ents)
        | none => none
      else
        match updateCalcsAtList ents tid old new with
        | some ents' => some (.mk i p n a calcs ents')
        | none => none

def updateCalcsAtList : List EntityDef → String → CalcDef → CalcDef → Option (List EntityDef)
  | [], _, _, _ => none
  | e :: rest, tid, old, new =>
      match updateCalcsAt e tid old new with
      | some e' => some (e' :: rest)
      | none =>
          match updateCalcsAtList rest tid old new with
          | some rest' => some (e :: rest')
          | none => none

end

/-- `check_unique_name`: `True` iff no sibling attribute, child entity or
calculation carries the name.  A `None` request name (field not supplied)
compares unequal to every stored string, so the check passes. -/
def checkUniqueName (e : EntityDef) (name : Option String) : Bool :=
  match name with
  | none => true
  | some n =>
      !(e.attributes.any (fun a => a.name = n) ||
        e.entities.any (fun c => c.name = n) ||
        e.calculations.any (fun c => c.name = n))

/-- The `Calculation_Definition_Update` request body (optional fields not
supplied stay `none`; description and data-type updates do not influence
the formula subsystem and are elided). -/
structure CalcUpdateRequest where
  template_id : String
  calculation_id : String
  name : Option String
  formula : Option String
deriving Repr

/-- What the `update_calculation` endpoint did: the HTTP error detail it
raised (if any), whether it crashed with an uncaught exception, and the
document it wrote to the store (if any). -/
structure UpdateOutcome where
  error : Option String
  crashed : Bool
  written : Option TemplateDoc
deriving Repr

/-- `update_calculation`: fetch the template, require `Draft` status, find
the calculation and its (reported) owner, check name uniqueness, replace
the calculation with the updated copy, re-resolve every formula of the
template, and gate the write on `if check_formula_code(...)` — the
*truthiness* of the inconsistent return value, so a `(True, "")` success
and a `(False, reason)` tuple both abort with "Formula is not valid",
while a bare `False` (unsupported function or out-of-scope reference)
falls through and the invalid template is written. -/
def updateCalculation (tmplStore : List TemplateDoc) (req : CalcUpdateRequest) :
    UpdateOutcome :=
  match tmplStore.find? (fun t => t.id = req.template_id) with
  | none => { error := some "Template not found", crashed := false, written := none }
  | some template =>
      if template.status ≠ "Draft" then
        { error := some "Cannot modify non-draft template", crashed := false, written := none }
      else
        match findCalculationById template.trunk req.calculation_id with
        | none => { error := some "Calculation not found", crashed := false, written := none }
        | some (calculation_picked, parent_entity) =>
            if !checkUniqueName parent_entity req.name then
              { error := some "Name must be unique within the parent entity",
                crashed := false, written := none }
            else
              let new_calculation :=
                { calculation_picked with
                  name := req.name.getD calculation_picked.name,
                  formula := req.formula.getD calculation_picked.formula }
              match updateCalcsAt template.trunk parent_entity.id
                      calculation_picked new_calculation with
              | none => { error := none, crashed := true, written := none }
              | some trunk2 =>
                  match processTemplateformulas { template with trunk := trunk2 } with
                  | none => { error := none, crashed := true, written := none }
                  | some template3 =>
                      match checkFormulaCode template3.trunk req.calculation_id with
                      | none => { error := none, crashed := true, written := none }
                      | some res =>
                          if res.truthy then
                            { error := some "Formula is not valid", crashed := false,
                              written := none }
                          else
                            { error := none, crashed := false, written := some template3 }

/-! ## Concrete fixtures used by the claim theorems -/

/-- Lowercase example UUIDs in the shape `uuid.uuid4()` produces. -/
def idPolicyFactor : String := "aaaaaaaa-aaaa-aaaa-aaaa-aaaaaaaaaaaa"
def idBaseCost : String := "bbbbbbbb-bbbb-bbbb-bbbb-bbbbbbbbbbbb"
def idIfCalc : String := "cccccccc-cccc-cccc-cccc-cccccccccccc"
def idBoth : String := "dddddddd-dddd-dddd-dddd-dddddddddddd"
def idChildX : String := "eeeeeeee-eeee-eeee-eeee-eeeeeeeeeeee"
def idSumCalc : String := "ffffffff-ffff-ffff-ffff-ffffffffffff"
def idFetchCalc : String := "11111111-2222-3333-4444-555555555555"
def idAttrA : String := "aaaaaaa1-0000-0000-0000-000000000001"
def idCalcX : String := "aaaaaaa2-0000-0000-0000-000000000002"

/-- A template holding the three calculations evaluated by the runtime
claims: the end-to-end IF formula of the spec (resolved:
`IF(..policy_factor > 0.5, .base_cost, .base_cost * 2)`), a bare
single-reference formula, and a SUM over a nephew collection. -/
def evalTemplate : TemplateDoc :=
  { id := "T", status := "Draft",
    trunk := .mk "sch-root" "None" "Trunk" []
      [ { id := idIfCalc, parent_id := "sch-root", name := "if calc",
          formula := "IF(..policy_factor > 0.5, .base_cost, .base_cost * 2)",
          formula_code :=
            [.dct "IF" [.dct ">" [.str idPolicyFactor, .str "0.5"],
                        .str idBaseCost,
                        .dct "*" [.str idBaseCost, .str "2"]]] },
        { id := idFetchCalc, parent_id := "sch-root", name := "fetch calc",
          formula := "", formula_code := [.str idBoth] },
        { id := idSumCalc, parent_id := "sch-root", name := "sum calc",
          formula := "SUM(.child.x)", formula_code := [.dct "SUM" [.str ("_" ++ idChildX)]] } ]
      [] }

/-- Instance documents: a grandparent, a parent `r` carrying
`policy_factor = 0.7`, and the entity `e` carrying `base_cost = 100`. -/
def docGrand : Doc :=
  { id := "g", parent_entity_id := "none-at-all", attributes := [], is_deleted := false }
def docParentR : Doc :=
  { id := "r", parent_entity_id := "g",
    attributes := [⟨idPolicyFactor, "0.7"⟩], is_deleted := false }
def docEntityE : Doc :=
  { id := "e", parent_entity_id := "r",
    attributes := [⟨idBaseCost, "100"⟩], is_deleted := false }

/-- Instances for the single-value fetch: the attribute id `idBoth` is
carried by the parent `p` (value "B") *and* by the entity itself
(value "A"). -/
def docParentP : Doc :=
  { id := "p", parent_entity_id := "gg", attributes := [⟨idBoth, "B"⟩],
    is_deleted := false }
def docEntityBoth : Doc :=
  { id := "e5", parent_entity_id := "p", attributes := [⟨idBoth, "A"⟩],
    is_deleted := false }
def docGrand2 : Doc :=
  { id := "gg", parent_entity_id := "zz", attributes := [], is_deleted := false }

/-- Instances for the fan-out: entity `r6` with children carrying
`x = 1` (live), `x = 2` (soft-deleted) and `x = 3` (live). -/
def docParentR6 : Doc :=
  { id := "r6", parent_entity_id := "gg", attributes := [], is_deleted := false }
def docChild1 : Doc :=
  { id := "c1", parent_entity_id := "r6", attributes := [⟨idChildX, "1"⟩],
    is_deleted := false }
def docChild2Deleted : Doc :=
  { id := "c2", parent_entity_id := "r6", attributes := [⟨idChildX, "2"⟩],
    is_deleted := true }
def docChild3 : Doc :=
  { id := "c3", parent_entity_id := "r6", attributes := [⟨idChildX, "3"⟩],
    is_deleted := false }

/-- The whole instance store of the runtime claims. -/
def evalStore : List Doc :=
  [docGrand, docParentR, docEntityE, docParentP, docEntityBoth, docGrand2,
   docParentR6, docChild1, docChild2Deleted, docChild3]

/-- A schema whose only calculation holds a *nested* reference to itself
(`{"SUM": ["c_<own id>", "<attribute id>"]}`), exactly what committing the
formula `SUM(.w, .a)` on a calculation named `w` next to an attribute
named `A` produces. -/
def nestedSelfRefCalc : CalcDef :=
  { id := idCalcX, parent_id := "e-root", name := "w", formula := "SUM(.w, .a)",
    formula_code := [.dct "SUM" [.str ("c_" ++ idCalcX), .str idAttrA]] }

def nestedSelfRefTrunk : EntityDef :=
  .mk "e-root" "None" "Trunk" [⟨idAttrA, "A"⟩] [nestedSelfRefCalc] []

/-- The same self-reference placed at top level (`[".w"]` resolved),
where `get_ids` does collect it. -/
def topSelfRefTrunk : EntityDef :=
  .mk "e-root" "None" "Trunk" [⟨idAttrA, "A"⟩]
    [ { id := idCalcX, parent_id := "e-root", name := "w", formula := ".w",
        formula_code := [.str ("c_" ++ idCalcX)] } ] []

/-- A schema whose only calculation carries the unsupported function key
`BOGUS` in a dict node. -/
def bogusKeyTrunk : EntityDef :=
  .mk "e-root" "None" "Trunk" []
    [ { id := idCalcX, parent_id := "e-root", name := "w", formula := "",
        formula_code := [.dct "BOGUS" [.str "2", .str "3"]] } ] []

/-- The stored template of the update-commit claim: one attribute `a` and
one calculation `x` whose formula `.a` resolves to that attribute. -/
def storedTemplate : TemplateDoc :=
  { id := "T", status := "Draft",
    trunk := .mk "e-root" "None" "Trunk" [⟨idAttrA, "a"⟩]
      [ { id := idCalcX, parent_id := "e-root", name := "x", formula := ".a",
          formula_code := [.str idAttrA] } ] [] }

/-- The update request that rewrites `x`'s formula to `.x` — a reference
to itself, which scope validation must reject (a calculation's own id is
excluded from its sibling scope). -/
def selfRefRequest : CalcUpdateRequest :=
  { template_id := "T", calculation_id := idCalcX, name := none,
    formula := some ".x" }

/-- The template `update_calculation` actually persists for that request:
the calculation's formula text replaced by `.x` and its resolved code by
the self-reference `c_<own id>`. -/
def writtenTemplate : TemplateDoc :=
  { id := "T", status := "Draft",
    trunk := .mk "e-root" "None" "Trunk" [⟨idAttrA, "a"⟩]
      [ { id := idCalcX, parent_id := "e-root", name := "x", formula := ".x",
          formula_code := [.str ("c_" ++ idCalcX)] } ] [] }

/-- A template whose single calculation `c5ref` stores the bare
single-reference formula code `[item]`. -/
def singleRefTemplate (item : String) : TemplateDoc :=
  { id := "T5", status := "Draft",
    trunk := .mk "sch" "None" "Trunk" []
      [ { id := "c5ref", parent_id := "sch", name := "c", formula := "",
          formula_code := [.str item] } ] [] }

/-- A committable template whose only calculation refers to itself at top
level (the document the C9 bug lets through to the store). -/
def selfLoopTemplate : TemplateDoc :=
  { id := "T", status := "Draft", trunk := topSelfRefTrunk }

/-! ## Specification-side graph notions for the cycle check -/

/-- Nonempty edge-path reachability in the dependency graph given by an
edge list. -/
inductive Reaches (E : List (String × String)) : String → String → Prop
  | single {a b : String} : (a, b) ∈ E → Reaches E a b
  | tail {a b c : String} : Reaches E a b → (b, c) ∈ E → Reaches E a c

/-- A graph contains a cycle iff some vertex reaches itself by a
nonempty path. -/
def HasCycle (E : List (String × String)) : Prop :=
  ∃ v, Reaches E v v

/-- A vertex set closed under outgoing edges. -/
def Closed (E : List (String × String)) (d : List String) : Prop :=
  ∀ u ∈ d, ∀ x, (u, x) ∈ E → x ∈ d

/-- No vertex of the set lies on a cycle. -/
def NoSelfReach (E : List (String × String)) (d : List String) : Prop :=
  ∀ u ∈ d, ¬ Reaches E u u

/-- The DFS stack read bottom-up is an edge path: each stack entry has an
edge to the entry pushed on top of it. -/
def StackPath (E : List (String × String)) : List String → Prop
  | [] => True
  | [_] => True
  | a :: b :: r => (b, a) ∈ E ∧ StackPath E (b :: r)

/-! ## Helper lemmas -/

/-- A left fold whose step either overwrites the accumulator with `some _`
or keeps it produces `some _` exactly when the initial value was `some _`
or some element fires the step. -/
theorem foldl_isSome_accum {α β : Type} (g : Option β → α → Option β)
    (p : α → Bool)
    (hg : ∀ acc x, (g acc x).isSome = (acc.isSome || p x)) :
    ∀ (l : List α) (init : Option β),
      (l.foldl g init).isSome = (init.isSome || l.any p) := by
  intro l
  induction l with
  | nil => intro init; simp
  | cons x xs ih =>
      intro init
      simp only [List.foldl_cons, List.any_cons, ih, hg, Bool.or_assoc]

/-! ### Cycle-check lemmas -/

theorem mem_adjOf {E : List (String × String)} {a b : String} :
    b ∈ adjOf E a ↔ (a, b) ∈ E := by
  simp only [adjOf, List.mem_map, List.mem_filter]
  constructor
  · rintro ⟨⟨x, y⟩, ⟨hmem, hx⟩, rfl⟩
    simp only [decide_eq_true_eq] at hx
    simpa [hx] using hmem
  · intro h
    exact ⟨(a, b), ⟨h, by simp⟩, rfl⟩

theorem reaches_closed {E : List (String × String)} {d : List String}
    (hc : Closed E d) {w x : String} (hw : w ∈ d) (hr : Reaches E w x) :
    x ∈ d := by
  induction hr with
  | single h => exact hc _ hw _ h
  | tail _ h ih => exact hc _ ih _ h

theorem reaches_first_step {E : List (String × String)} {a c : String}
    (h : Reaches E a c) : ∃ w, (a, w) ∈ E ∧ (w = c ∨ Reaches E w c) := by
  induction h with
  | single h => exact ⟨_, h, Or.inl rfl⟩
  | tail _ h ih =>
      obtain ⟨w, hw, hwc⟩ := ih
      rcases hwc with rfl | hr
      · exact ⟨w, hw, Or.inr (Reaches.single h)⟩
      · exact ⟨w, hw, Or.inr (Reaches.tail hr h)⟩

theorem stackPath_reaches {E : List (String × String)} :
    ∀ {r : List String} {a : String}, StackPath E (a :: r) →
      ∀ n ∈ r, Reaches E n a := by
  intro r
  induction r with
  | nil => intro a _ n hn; simp at hn
  | cons b r' ih =>
      intro a hsp n hn
      obtain ⟨hedge, hsp'⟩ := hsp
      rcases List.mem_cons.mp hn with rfl | hn'
      · exact Reaches.single hedge
      · exact Reaches.tail (ih hsp' n hn') hedge

theorem mem_vertsOf_left {E : List (String × String)} {a b : String}
    (h : (a, b) ∈ E) : a ∈ vertsOf E := by
  simp only [vertsOf, List.mem_dedup, List.mem_append, List.mem_map]
  exact Or.inl ⟨(a, b), h, rfl⟩

theorem mem_vertsOf_right {E : List (String × String)} {a b : String}
    (h : (a, b) ∈ E) : b ∈ vertsOf E := by
  simp only [vertsOf, List.mem_dedup, List.mem_append, List.mem_map]
  exact Or.inr ⟨(a, b), h, rfl⟩

theorem nodup_subset_length {stack U : List String}
    (hnd : stack.Nodup) (hsub : ∀ x ∈ stack, x ∈ U) :
    stack.length ≤ U.length := by
  have h1 : stack.toFinset.card = stack.length := List.toFinset_card_of_nodup hnd
  have h2 : stack.toFinset ⊆ U.toFinset := by
    intro x hx
    rw [List.mem_toFinset] at hx ⊢
    exact hsub x hx
  calc stack.length = stack.toFinset.card := h1.symm
    _ ≤ U.toFinset.card := Finset.card_le_card h2
    _ ≤ U.length := U.toFinset_card_le

/-- On an acyclic graph the neighbour loop (with a current node `h` on
top of the stack) never reports a cycle, provided visits of fresh nodes
at this fuel never do. -/
theorem dfsList_acyclic (E : List (String × String))
    (hA : ∀ v, ¬ Reaches E v v) (fuel : Nat) (h : String) (stk : List String)
    (hnode : ∀ v done, v ∈ vertsOf E → v ∉ h :: stk →
      StackPath E (v :: h :: stk) → (dfsNode fuel E v done (h :: stk)).1 = false) :
    ∀ (ns : List String) (done : List String),
      (∀ n ∈ ns, (h, n) ∈ E) →
      StackPath E (h :: stk) →
      (dfsList fuel E ns done (h :: stk)).1 = false := by
  intro ns
  induction ns with
  | nil => intro done _ _; simp [dfsList]
  | cons n rest ih =>
      intro done hns hsp
      have hedge : (h, n) ∈ E := hns n (by simp)
      have hrest : ∀ m ∈ rest, (h, m) ∈ E := fun m hm => hns m (by simp [hm])
      by_cases hvis : n ∉ done ∧ n ∉ h :: stk
      · have hsp' : StackPath E (n :: h :: stk) := ⟨hedge, hsp⟩
        have hn1 := hnode n done (mem_vertsOf_right hedge) hvis.2 hsp'
        rcases hd : dfsNode fuel E n done (h :: stk) with ⟨b, d1⟩
        rw [hd] at hn1
        simp only at hn1
        subst hn1
        simp only [dfsList]
        rw [if_pos hvis, hd]
        exact ih d1 hrest hsp
      · by_cases hstk : n ∈ h :: stk
        · exfalso
          rcases List.mem_cons.mp hstk with rfl | hmem
          · exact hA n (Reaches.single hedge)
          · exact hA n (Reaches.tail (stackPath_reaches hsp n hmem) hedge)
        · simp only [dfsList]
          rw [if_neg hvis, if_neg hstk]
          exact ih done hrest hsp

/-- On an acyclic graph a node visit never reports a cycle, as long as
the fuel dominates the number of vertices not yet on the stack. -/
theorem dfsNode_acyclic (E : List (String × String))
    (hA : ∀ v, ¬ Reaches E v v) :
    ∀ (fuel : Nat) (v : String) (done stack : List String),
      stack.Nodup → (∀ x ∈ stack, x ∈ vertsOf E) → v ∈ vertsOf E →
      v ∉ stack → StackPath E (v :: stack) →
      (vertsOf E).length + 1 ≤ fuel + stack.length →
      (dfsNode fuel E v done stack).1 = false := by
  intro fuel
  induction fuel with
  | zero =>
      intro v done stack hnd hsub hv hvs _ hlen
      exfalso
      have hle : (v :: stack).length ≤ (vertsOf E).length :=
        nodup_subset_length (List.nodup_cons.mpr ⟨hvs, hnd⟩)
          (by
            intro x hx
            rcases List.mem_cons.mp hx with rfl | hx2
            · exact hv
            · exact hsub x hx2)
      simp only [List.length_cons] at hle
      omega
  | succ f ihf =>
      intro v done stack hnd hsub hv hvs hsp hlen
      have hnd' : (v :: stack).Nodup := List.nodup_cons.mpr ⟨hvs, hnd⟩
      have hsub' : ∀ x ∈ v :: stack, x ∈ vertsOf E := by
        intro x hx
        rcases List.mem_cons.mp hx with rfl | hx2
        · exact hv
        · exact hsub x hx2
      have hlist := dfsList_acyclic E hA f v stack
        (fun v' done' hv' hvs' hsp' =>
          ihf v' done' (v :: stack) hnd' hsub' hv' hvs' hsp'
            (by simp only [List.length_cons]; omega))
        (adjOf E v) done
        (fun n hn => mem_adjOf.mp hn) hsp
      rcases hd : dfsList f E (adjOf E v) done (v :: stack) with ⟨b, d1⟩
      rw [hd] at hlist
      simp only at hlist
      subst hlist
      simp only [dfsNode]
      rw [hd]

/-- On an acyclic graph the top-level loop returns `false`. -/
theorem dfsAll_acyclic (E : List (String × String))
    (hA : ∀ v, ¬ Reaches E v v) :
    ∀ (nodes done : List String),
      (∀ x ∈ nodes, x ∈ vertsOf E) →
      (dfsAll ((vertsOf E).length + 1) E nodes done).1 = false := by
  intro nodes
  induction nodes with
  | nil => intro done _; simp [dfsAll]
  | cons v rest ih =>
      intro done hsub
      have hv : v ∈ vertsOf E := hsub v (by simp)
      have hrest : ∀ x ∈ rest, x ∈ vertsOf E := fun x hx => hsub x (by simp [hx])
      by_cases hvd : v ∉ done
      · have hn := dfsNode_acyclic E hA ((vertsOf E).length + 1) v done []
          List.nodup_nil (by simp) hv (by simp) trivial (by simp)
        rcases hd : dfsNode ((vertsOf E).length + 1) E v done [] with ⟨b, d1⟩
        rw [hd] at hn
        simp only at hn
        subst hn
        simp only [dfsAll]
        rw [if_pos hvd, hd]
        exact ih d1 hrest
      · simp only [dfsAll]
        rw [if_neg hvd]
        exact ih done hrest

/-- When the neighbour loop finishes without reporting a cycle, the
finished set has grown monotonically, stays off the stack, stays closed
under edges, still contains no vertex on a cycle, and has absorbed every
scanned neighbour — provided fresh node visits at this fuel maintain the
same contract. -/
theorem dfsList_complete (E : List (String × String)) (fuel : Nat)
    (stack : List String)
    (hnode : ∀ v done d2, v ∉ done → v ∉ stack →
      (∀ x ∈ done, x ∉ stack) → Closed E done → NoSelfReach E done →
      dfsNode fuel E v done stack = (false, d2) →
      (∀ x ∈ done, x ∈ d2) ∧ (∀ x ∈ d2, x ∉ stack) ∧ v ∈ d2 ∧
        Closed E d2 ∧ NoSelfReach E d2) :
    ∀ (ns done d2 : List String),
      (∀ x ∈ done, x ∉ stack) → Closed E done → NoSelfReach E done →
      dfsList fuel E ns done stack = (false, d2) →
      (∀ x ∈ done, x ∈ d2) ∧ (∀ x ∈ d2, x ∉ stack) ∧ Closed E d2 ∧
        NoSelfReach E d2 ∧ (∀ n ∈ ns, n ∈ d2) := by
  intro ns
  induction ns with
  | nil =>
      intro done d2 hds hcl hns heq
      simp only [dfsList, Prod.mk.injEq, true_and] at heq
      subst heq
      exact ⟨fun x hx => hx, hds, hcl, hns, by simp⟩
  | cons n rest ih =>
      intro done d2 hds hcl hns heq
      simp only [dfsList] at heq
      by_cases hvis : n ∉ done ∧ n ∉ stack
      · rw [if_pos hvis] at heq
        rcases hd : dfsNode fuel E n done stack with ⟨b, d1⟩
        rw [hd] at heq
        cases b with
        | true => simp at heq
        | false =>
            simp only at heq
            obtain ⟨hmono1, hoff1, hnin1, hcl1, hns1⟩ :=
              hnode n done d1 hvis.1 hvis.2 hds hcl hns hd
            obtain ⟨hmono2, hoff2, hcl2, hns2, hall2⟩ :=
              ih d1 d2 hoff1 hcl1 hns1 heq
            refine ⟨fun x hx => hmono2 x (hmono1 x hx), hoff2, hcl2, hns2, ?_⟩
            intro m hm
            rcases List.mem_cons.mp hm with rfl | hm2
            · exact hmono2 m hnin1
            · exact hall2 m hm2
      · rw [if_neg hvis] at heq
        by_cases hstk : n ∈ stack
        · rw [if_pos hstk] at heq
          simp at heq
        · rw [if_neg hstk] at heq
          have hnd : n ∈ done := by
            by_contra hnd
            exact hvis ⟨hnd, hstk⟩
          obtain ⟨hmono2, hoff2, hcl2, hns2, hall2⟩ :=
            ih done d2 hds hcl hns heq
          refine ⟨hmono2, hoff2, hcl2, hns2, ?_⟩
          intro m hm
          rcases List.mem_cons.mp hm with rfl | hm2
          · exact hmono2 m hnd
          · exact hall2 m hm2

/-- When a node visit finishes without reporting a cycle, the node has
joined the finished set, which remains closed, off the stack, and free of
cycle vertices. -/
theorem dfsNode_complete (E : List (String × String)) :
    ∀ (fuel : Nat) (v : String) (done stack d2 : List String),
      v ∉ done → v ∉ stack →
      (∀ x ∈ done, x ∉ stack) → Closed E done → NoSelfReach E done →
      dfsNode fuel E v done stack = (false, d2) →
      (∀ x ∈ done, x ∈ d2) ∧ (∀ x ∈ d2, x ∉ stack) ∧ v ∈ d2 ∧
        Closed E d2 ∧ NoSelfReach E d2 := by
  intro fuel
  induction fuel with
  | zero =>
      intro v done stack d2 _ _ _ _ _ heq
      simp [dfsNode] at heq
  | succ f ihf =>
      intro v done stack d2 hvd hvs hds hcl hns heq
      simp only [dfsNode] at heq
      rcases hd : dfsList f E (adjOf E v) done (v :: stack) with ⟨b, d1⟩
      rw [hd] at heq
      cases b with
      | true => simp at heq
      | false =>
          simp only [Prod.mk.injEq, true_and] at heq
          have hds' : ∀ x ∈ done, x ∉ v :: stack := by
            intro x hx
            simp only [List.mem_cons, not_or]
            exact ⟨fun hxv => hvd (hxv ▸ hx), hds x hx⟩
          obtain ⟨hmono1, hoff1, hcl1, hns1, hall1⟩ :=
            dfsList_complete E f (v :: stack)
              (fun v' done' d2' h1 h2 h3 h4 h5 h6 =>
                ihf v' done' (v :: stack) d2' h1 h2 h3 h4 h5 h6)
              (adjOf E v) done d1 hds' hcl hns hd
          have hvnotd1 : v ∉ d1 := fun hv => (hoff1 v hv) (by simp)
          subst heq
          refine ⟨?_, ?_, by simp, ?_, ?_⟩
          · intro x hx
            exact List.mem_cons_of_mem v (hmono1 x hx)
          · intro x hx
            rcases List.mem_cons.mp hx with rfl | hx2
            · exact hvs
            · intro hxs
              exact hoff1 x hx2 (List.mem_cons_of_mem v hxs)
          · intro u hu x hux
            rcases List.mem_cons.mp hu with rfl | hu2
            · exact List.mem_cons_of_mem _ (hall1 x (mem_adjOf.mpr hux))
            · exact List.mem_cons_of_mem _ (hcl1 u hu2 x hux)
          · intro u hu
            rcases List.mem_cons.mp hu with rfl | hu2
            · intro hreach
              obtain ⟨w, hw, hcase⟩ := reaches_first_step hreach
              have hwd1 : w ∈ d1 := hall1 w (mem_adjOf.mpr hw)
              rcases hcase with rfl | hr
              · exact hvnotd1 hwd1
              · exact hvnotd1 (reaches_closed hcl1 hwd1 hr)
            · exact hns1 u hu2

/-- When the top-level loop finishes without reporting a cycle, every
processed node is finished, and the finished set (which only grows) is
closed and free of cycle vertices. -/
theorem dfsAll_complete (E : List (String × String)) (fuel : Nat) :
    ∀ (nodes done d2 : List String),
      Closed E done → NoSelfReach E done →
      dfsAll fuel E nodes done = (false, d2) →
      (∀ x ∈ done, x ∈ d2) ∧ Closed E d2 ∧ NoSelfReach E d2 ∧
        (∀ v ∈ nodes, v ∈ d2) := by
  intro nodes
  induction nodes with
  | nil =>
      intro done d2 hcl hns heq
      simp only [dfsAll, Prod.mk.injEq, true_and] at heq
      subst heq
      exact ⟨fun x hx => hx, hcl, hns, by simp⟩
  | cons v rest ih =>
      intro done d2 hcl hns heq
      simp only [dfsAll] at heq
      by_cases hvd : v ∉ done
      · rw [if_pos hvd] at heq
        rcases hd : dfsNode fuel E v done [] with ⟨b, d1⟩
        rw [hd] at heq
        cases b with
        | true => simp at heq
        | false =>
            simp only at heq
            obtain ⟨hmono1, _, hvin1, hcl1, hns1⟩ :=
              dfsNode_complete E fuel v done [] d1 hvd (by simp)
                (by simp) hcl hns hd
            obtain ⟨hmono2, hcl2, hns2, hall2⟩ := ih d1 d2 hcl1 hns1 heq
            refine ⟨fun x hx => hmono2 x (hmono1 x hx), hcl2, hns2, ?_⟩
            intro m hm
            rcases List.mem_cons.mp hm with rfl | hm2
            · exact hmono2 m hvin1
            · exact hall2 m hm2
      · rw [if_neg hvd] at heq
        have hvdone : v ∈ done := not_not.mp hvd
        obtain ⟨hmono2, hcl2, hns2, hall2⟩ := ih done d2 hcl hns heq
        refine ⟨hmono2, hcl2, hns2, ?_⟩
        intro m hm
        rcases List.mem_cons.mp hm with rfl | hm2
        · exact hmono2 m hvdone
        · exact hall2 m hm2

/-! ## Claim theorems -/

/-- C2: `check_circularities` on the collected
`(calculation id, referenced id)` edge list returns `True` exactly when
the directed graph has a cycle (a nonempty path from some vertex to
itself).  In particular every graph containing a cycle of length at
least 2 is rejected (such a cycle witnesses `HasCycle`), and every
acyclic graph is accepted. -/
theorem c2_cycle_check_correct (E : List (String × String)) :
    checkCircularities E = true ↔ HasCycle E := by
  have hdef : checkCircularities E =
      (dfsAll ((vertsOf E).length + 1) E ((E.map Prod.fst).dedup) []).1 := rfl
  constructor
  · intro htrue
    by_contra hnc
    have hA : ∀ v, ¬ Reaches E v v := fun v hr => hnc ⟨v, hr⟩
    have hfalse := dfsAll_acyclic E hA ((E.map Prod.fst).dedup) []
      (by
        intro x hx
        rw [List.mem_dedup] at hx
        obtain ⟨⟨a, b⟩, hab, rfl⟩ := List.mem_map.mp hx
        exact mem_vertsOf_left hab)
    rw [hdef] at htrue
    rw [htrue] at hfalse
    exact absurd hfalse (by simp)
  · rintro ⟨v, hv⟩
    by_contra hne
    have hfalse : checkCircularities E = false := by
      cases hcc : checkCircularities E with
      | true => exact absurd hcc hne
      | false => rfl
    rw [hdef] at hfalse
    rcases hall : dfsAll ((vertsOf E).length + 1) E ((E.map Prod.fst).dedup) []
      with ⟨b, d2⟩
    rw [hall] at hfalse
    simp only at hfalse
    subst hfalse
    obtain ⟨_, _, hns2, hall2⟩ :=
      dfsAll_complete E ((vertsOf E).length + 1) ((E.map Prod.fst).dedup) [] d2
        (by intro u hu; simp at hu) (by intro u hu; simp at hu) hall
    obtain ⟨w, hw, _⟩ := reaches_first_step hv
    have hvnodes : v ∈ (E.map Prod.fst).dedup := by
      rw [List.mem_dedup]
      exact List.mem_map.mpr ⟨(v, w), hw, rfl⟩
    exact hns2 v (hall2 v hvnodes) hv

/-- C3: `parse_formula` folds the `{*, /}` tier before the `{+, -}` tier,
scanning left to right: `"2 * 3 + 4"` parses to
`[{"+": [{"*": ["2", "3"]}, "4"]}]`, that tree evaluates to `10`, and
`"A * B * C"` parses to a left-nested pair of binary `"*"` nodes, never a
ternary node. -/
theorem c3_parse_precedence :
    parseFormula "2 * 3 + 4" =
      some [FPart.dct "+" [FPart.dct "*" [FPart.str "2", FPart.str "3"],
                           FPart.str "4"]] ∧
    processFunction 20 [evalTemplate] evalTemplate evalStore docEntityE none
        (FPart.dct "+" [FPart.dct "*" [FPart.str "2", FPart.str "3"],
                        FPart.str "4"]) =
      .ok (.f 10) ∧
    parseFormula "A * B * C" =
      some [FPart.dct "*" [FPart.dct "*" [FPart.str "A", FPart.str "B"],
                           FPart.str "C"]] :=
  ⟨rfl, rfl, rfl⟩

/-- C4 (code bug): `_function_if` returns `items_list[2]` — the
*else*-branch — when the condition is truthy, and `items_list[1]`
otherwise, inverting the documented IF(condition, then, else) semantics;
consequently the spec's end-to-end example
`IF(..policy_factor > 0.5, .base_cost, .base_cost * 2)` with uncle
attribute `policy_factor = 0.7` and sibling attribute `base_cost = 100`
evaluates to `"200.0"`, not the claimed `100`. -/
theorem c4_if_branches_swapped :
    functionIf [.b true, .s "then", .s "else"] = .ok (.s "else") ∧
    functionIf [.b false, .s "then", .s "else"] = .ok (.s "then") ∧
    calcF 30 [evalTemplate] evalTemplate evalStore docEntityE idIfCalc =
      .ok (.s "200.0") :=
  ⟨rfl, rfl, rfl⟩

/-- C5 (counterexample): with the attribute id present on both the parent
instance (value "B") *and* the entity itself (value "A"), the
empty-prefix fetch appends **two** values, the parent's first — so it
neither searches the entity's own attributes first nor produces exactly
one value, and the full evaluation returns the parent's "B" where the
claim requires the entity's own "A". -/
theorem c5_parent_searched_first_counterexample :
    getValues 10 [evalTemplate] evalTemplate evalStore docEntityBoth
        (some docParentP) [.str idBoth] = .ok [.s "B", .s "A"] ∧
    calcF 30 [evalTemplate] evalTemplate evalStore docEntityBoth idFetchCalc =
      .ok (.s "B") ∧
    calcF 30 [evalTemplate] evalTemplate evalStore docEntityBoth idFetchCalc ≠
      .ok (.s "A") :=
  ⟨rfl, rfl, by
    rw [show calcF 30 [evalTemplate] evalTemplate evalStore docEntityBoth
          idFetchCalc = Except.ok (PyVal.s "B") from rfl]
    simp⟩

/-- C6 (code bug): the `_`-prefixed fan-out query selects on
`parent_entity_id` only — it does not filter `is_deleted` — so the
SUM over the child collection `x = 1` (live), `x = 2` (soft-deleted),
`x = 3` (live) evaluates to `"6.0"`, including the deleted child,
where the claim's live-only collection would sum to `4`. -/
theorem c6_deleted_children_included :
    docChild2Deleted.is_deleted = true ∧
    (findChildren evalStore docParentR6.id).map (·.id) = ["c1", "c2", "c3"] ∧
    calcF 30 [evalTemplate] evalTemplate evalStore docParentR6 idSumCalc =
      .ok (.s "6.0") :=
  ⟨rfl, rfl, rfl⟩

/-- C1 (code bug): `get_ids` only descends into tuple nodes, but stored
formula code consists of dict nodes, so a resolved reference nested
inside a function-argument list is never collected and never checked
against the scope: the calculation whose code is
`[{"SUM": ["c_<own id>", "<attr id>"]}]` passes `check_formula_code` with
`(True, "")` even though its own id is outside its computed scope —
while the very same reference at top level is rejected (bare `False`). -/
theorem c1_nested_scope_escape :
    getScope nestedSelfRefCalc nestedSelfRefTrunk idCalcX =
      some ([idAttrA], []) ∧
    checkFormulaCode nestedSelfRefTrunk idCalcX = some (.pair true "") ∧
    checkFormulaCode topSelfRefTrunk idCalcX = some (.bool false) :=
  ⟨rfl, rfl, rfl⟩

/-- C7 (code bug): `check_functions` inspects only tuple nodes while the
stored trees hold dict nodes, so the unsupported key `BOGUS` passes the
whole commit validation; moreover the allow-list in `check_functions`
omits `CONTAINS` and `NOT_CONTAINS`, which the claim (and the runtime
dispatcher) include. -/
theorem c7_function_allowlist_unenforced :
    checkFormulaCode bogusKeyTrunk idCalcX = some (.pair true "") ∧
    checkFunctions [FPart.dct "BOGUS" [FPart.str "2", FPart.str "3"]] = true ∧
    ("BOGUS" ∈ checkFunctionsAllow) = False ∧
    ("CONTAINS" ∈ checkFunctionsAllow) = False ∧
    ("NOT_CONTAINS" ∈ checkFunctionsAllow) = False :=
  ⟨rfl, rfl, by simp [checkFunctionsAllow], by simp [checkFunctionsAllow],
   by simp [checkFunctionsAllow]⟩

/-- C9 (code bug): `update_calculation` gates the write on
`if check_formula_code(...)` — the truthiness of an inconsistent return
value — so when scope validation fails with a bare `False` (here: the
updated formula `.x` resolves to the calculation's own id, which is
outside its scope) the gate does not fire and the partially updated
template, self-reference included, is written to the store. -/
theorem c9_invalid_update_is_written :
    updateCalculation [storedTemplate] selfRefRequest =
      { error := none, crashed := false, written := some writtenTemplate } ∧
    checkFormulaCode writtenTemplate.trunk idCalcX = some (.bool false) ∧
    writtenTemplate ≠ storedTemplate :=
  ⟨rfl, rfl, by
    intro h
    have := congrArg (fun t => t.trunk.calculations.map (·.formula)) h
    simp [writtenTemplate, storedTemplate, EntityDef.calculations] at this⟩

/-- C5 (amended): for any instance store, when the evaluator reaches an
empty-prefix reference it scans the *parent* instance's attribute values
first and the entity's own second, appending the first match of each, so
a bare-reference calculation on an entity whose parent also carries the
attribute id evaluates to the parent's value. -/
theorem c5_parent_first_fetch (n : Nat) (store : List Doc) (e p : Doc)
    (u : String) (ap ae : AttrVal)
    (hU : findUuidSplit u = some ("", u))
    (hP : getDocument store e.parent_entity_id = some p)
    (hp : p.attributes.find? (fun a => a.attribute_definition_id = u) = some ap)
    (he : e.attributes.find? (fun a => a.attribute_definition_id = u) = some ae) :
    calcF (n + 4) [singleRefTemplate u] (singleRefTemplate u) store e "c5ref" =
      .ok (.s ap.value) := by
  have h1 : calcF (n + 4) [singleRefTemplate u] (singleRefTemplate u) store e "c5ref"
      = processFunction (n + 3) [singleRefTemplate u] (singleRefTemplate u)
          store e (getDocument store e.parent_entity_id) (.lst [.str u]) := rfl
  rw [h1, hP]
  have h2 : processFunction (n + 3) [singleRefTemplate u] (singleRefTemplate u)
        store e (some p) (.lst [.str u])
      = ((matchUuid (n + 1) [singleRefTemplate u] (singleRefTemplate u)
            store e (some p) u).bind functionIdentityList).bind
          functionIdentityVal := rfl
  rw [h2]
  have h3 : matchUuid (n + 1) [singleRefTemplate u] (singleRefTemplate u)
        store e (some p) u
      = .ok (((p.attributes.find? (fun a => a.attribute_definition_id = u)).toList.map
                (fun a => PyVal.s a.value)) ++
             ((e.attributes.find? (fun a => a.attribute_definition_id = u)).toList.map
                (fun a => PyVal.s a.value))) := by
    simp only [matchUuid, hU]
    simp
  rw [h3, hp, he]
  rfl

/-- C5 amended, witness: the concrete both-present store instantiates the
parent-first theorem. -/
theorem c5_parent_first_fetch_witness :
    calcF 26 [singleRefTemplate idBoth] (singleRefTemplate idBoth) evalStore
      docEntityBoth "c5ref" = .ok (.s "B") :=
  c5_parent_first_fetch 22 evalStore docEntityBoth docParentP idBoth
    ⟨idBoth, "B"⟩ ⟨idBoth, "A"⟩ rfl rfl rfl rfl

/-- C10: a relative reference's name component resolves against an
entity's scope exactly when some stored element's display name,
lowercased with spaces replaced by underscores (`normName`), equals the
component — for sibling attributes and calculations, and for nephew
references, for a child entity's name together with one of its
attributes or calculations. -/
theorem c10_name_matching (e : EntityDef) (tmpl : TemplateDoc) (n1 n2 : String) :
    ((getElementId e n1 "" "sibling" tmpl).isSome ↔
      (∃ a ∈ e.attributes, normName a.name = n1) ∨
      (∃ c ∈ e.calculations, normName c.name = n1)) ∧
    ((getElementId e n1 n2 "nephew" tmpl).isSome ↔
      ∃ ch ∈ e.entities, normName ch.name = n1 ∧
        ((∃ a ∈ ch.attributes, normName a.name = n2) ∨
         (∃ c ∈ ch.calculations, normName c.name = n2))) := by
  constructor
  · have hsel : getElementId e n1 "" "sibling" tmpl
        = e.calculations.foldl
            (fun acc c => if normName c.name = n1 then some ("c_" ++ c.id) else acc)
            (e.attributes.foldl
              (fun acc attr => if normName attr.name = n1 then some attr.id else acc)
              none) := rfl
    rw [hsel,
      foldl_isSome_accum _ (fun c => normName c.name = n1)
        (by intro acc x; by_cases h : normName x.name = n1 <;> simp [h]),
      foldl_isSome_accum _ (fun a => normName a.name = n1)
        (by intro acc x; by_cases h : normName x.name = n1 <;> simp [h])]
    simp [List.any_eq_true, or_comm]
  · have hsel : getElementId e n1 n2 "nephew" tmpl
        = e.entities.foldl
            (fun acc child =>
              if normName child.name = n1 then
                child.calculations.foldl
                  (fun acc2 c => if normName c.name = n2 then some ("_c_" ++ c.id) else acc2)
                  (child.attributes.foldl
                    (fun acc2 attr => if normName attr.name = n2 then some ("_" ++ attr.id) else acc2)
                    acc)
              else acc)
            none := rfl
    rw [hsel,
      foldl_isSome_accum _
        (fun ch => normName ch.name = n1 &&
          (ch.attributes.any (fun a => normName a.name = n2)
            || ch.calculations.any (fun c => normName c.name = n2)))
        (by
          intro acc ch
          by_cases h : normName ch.name = n1
          · rw [if_pos h,
              foldl_isSome_accum _ (fun c => normName c.name = n2)
                (by intro acc2 x; by_cases h2 : normName x.name = n2 <;> simp [h2]),
              foldl_isSome_accum _ (fun a => normName a.name = n2)
                (by intro acc2 x; by_cases h2 : normName x.name = n2 <;> simp [h2])]
            simp [h, Bool.or_assoc]
          · simp [h])]
    simp [List.any_eq_true, and_assoc]

/-- C8 (code bug): the evaluator carries no recursion guard — a stored
self-referential calculation (which the C1/C9 validation bugs let
through to the store) makes `calc` recurse forever: for *every* fuel
bound the fuel-indexed model exhausts its fuel instead of returning a
value or a typed recursion-guard error (the real interpreter recurses
until the untyped Python `RecursionError` kills it). -/
theorem c8_unguarded_recursion_diverges :
    ∀ n, calcF n [selfLoopTemplate] selfLoopTemplate evalStore docEntityE idCalcX =
      .error .noFuel := by
  intro n
  induction n using Nat.strong_induction_on with
  | _ n ih =>
    match n, ih with
    | 0, _ => rfl
    | 1, _ => rfl
    | 2, _ => rfl
    | 3, _ => rfl
    | (j + 4), ih =>
        have h := ih j (by omega)
        have hstep : calcF (j + 4) [selfLoopTemplate] selfLoopTemplate evalStore
            docEntityE idCalcX
          = ((((calcF j [selfLoopTemplate] selfLoopTemplate evalStore docEntityE
                idCalcX).bind
                (fun v => Except.ok [v])).bind
                functionIdentityList).bind functionIdentityVal) := rfl
        rw [hstep, h]
        rfl

end Hcds
